import Mathlib

/-!
Shallow embedding of the two scripts of this repository,
src/scripts/loon.py and src/scripts/adguard.py, together with proofs
about the claims of the specification.  Python strings are modelled as
lists of characters (Str); each Python function is translated into a
Lean definition of the same name where possible.
-/

set_option maxRecDepth 10000

abbrev Str := List Char

/-- Characters of a Lean string literal, used to write Python string values. -/
def str (s : String) : Str := s.toList

/-- Whitespace as stripped by Python str.strip(). -/
def isSpaceChar (c : Char) : Bool :=
  c = ' ' || c = '\t' || c = '\n' || c = '\r' || c = '\x0b' || c = '\x0c'

/-- Python str.strip(): drop leading and trailing whitespace. -/
def strip (s : Str) : Str :=
  ((s.dropWhile isSpaceChar).reverse.dropWhile isSpaceChar).reverse

/-- Python str.split(sep) for a one-character separator: always returns at
least one (possibly empty) field. -/
def splitOnChar (sep : Char) : Str → List Str
  | [] => [[]]
  | c :: rest =>
    match splitOnChar sep rest with
    | [] => [[]]
    | g :: gs => if c = sep then [] :: g :: gs else (c :: g) :: gs

/-- Python str.lower() on the ASCII range. -/
def lowerStr (s : Str) : Str := s.map Char.toLower

/-- Python str.upper() on the ASCII range. -/
def upperStr (s : Str) : Str := s.map Char.toUpper

/-- Python str.startswith. -/
def startsWith (p s : Str) : Bool := p.isPrefixOf s

/-- Python str.endswith. -/
def endsWith (p s : Str) : Bool := p.isSuffixOf s

def isDigitChar (c : Char) : Bool := '0' ≤ c && c ≤ '9'

/-- Value of a decimal digit string (Python int() on validated input). -/
def digitsToNat (s : Str) : Nat :=
  s.foldl (fun a c => a * 10 + (c.toNat - '0'.toNat)) 0

/-- One octet of a dotted-quad IPv4 address, as the Python ipaddress module
parses it: decimal digits only, at most three of them, no leading zero
(except the single digit 0 itself), value at most 255. -/
def parseOctet (s : Str) : Option Nat :=
  if s = [] || decide (s.length > 3) || !(s.all isDigitChar) then none
  else if s ≠ ['0'] && s.headI = '0' then none
  else
    let v := digitsToNat s
    if v ≤ 255 then some v else none

/-- Dotted-quad IPv4 address as an integer. -/
def parseIPv4Address (s : Str) : Option Nat :=
  match (splitOnChar '.' s).mapM parseOctet with
  | some [a, b, c, d] => some (((a * 256 + b) * 256 + c) * 256 + d)
  | _ => none

/-- The prefix length in prefix-string form: decimal digits (the Python
library accepts leading zeros here), value at most 32. -/
def parsePlen (s : Str) : Option Nat :=
  if s ≠ [] && s.all isDigitChar then
    let v := digitsToNat s
    if v ≤ 32 then some v else none
  else none

/-- The prefix length of a dotted netmask: the mask value with the top p
bits set, smallest matching p first (the all-ones and all-zero masks are
netmasks, as in the Python library). -/
def netmaskPlen (m : Nat) : Option Nat :=
  (List.range 33).find? (fun p => m = 2 ^ 32 - 2 ^ (32 - p))

/-- The prefix length of a dotted hostmask: the mask value with the low
32 - p bits set. -/
def hostmaskPlen (m : Nat) : Option Nat :=
  (List.range 33).find? (fun p => m = 2 ^ (32 - p) - 1)

/-- The field after the slash, as the Python library resolves it: a digit
string is a prefix length; anything else is parsed as a dotted-quad mask
and matched as a netmask first, then as a hostmask.  A digit string above
32 fails both ways, exactly as in the library (the prefix path reports an
invalid netmask and the dotted path cannot parse a dotless string). -/
def parseNetmaskField (p : Str) : Option Nat :=
  match parsePlen p with
  | some n => some n
  | none =>
    match parseIPv4Address p with
    | none => none
    | some m =>
      match netmaskPlen m with
      | some n => some n
      | none => hostmaskPlen m

/-- Python substring membership, pat in s. -/
def hasSubstr (pat : Str) : Str → Bool
  | [] => pat.isPrefixOf []
  | c :: rest => pat.isPrefixOf (c :: rest) || hasSubstr pat rest

/-- An IPv4 network: the (already masked) network address and the length
in bits of the network part. -/
structure IPv4Net where
  addr : Nat
  plen : Nat
deriving DecidableEq

/-- Shallow embedding of Python ipaddress.IPv4Network(value, strict=False):
a dotted-quad address alone (a host, prefix length 32), or followed by one
slash and a prefix length, dotted netmask or dotted hostmask; more than one
slash is rejected.  With strict=False, non-zero host bits are masked off
rather than rejected, so the stored address is the network address. -/
def parseIPv4Network (s : Str) : Option IPv4Net :=
  match splitOnChar '/' s with
  | [a] => (parseIPv4Address a).map (fun addr => ⟨addr, 32⟩)
  | [a, p] =>
    match parseIPv4Address a, parseNetmaskField p with
    | some addr, some plen => some ⟨addr - addr % 2 ^ (32 - plen), plen⟩
    | _, _ => none
  | _ => none

namespace Loon

/-- The 4-tuple returned by loon.py parse_rule.  The fourth slot is
overloaded exactly as in the source: it is True for a line rejected for its
leading dot, and for an accepted IP-CIDR rule it instead carries the
has_no_resolve flag (main reads it as is_leading_dot in both cases). -/
structure ParseResult where
  rtype : Option Str
  rval : Option Str
  ok : Bool
  flag : Bool
deriving DecidableEq

/-- Characters allowed by the domain regex of loon.py,
r-string caret a-z0-9 hyphen dot dollar. -/
def domainCharOk (c : Char) : Bool :=
  ('a' ≤ c && c ≤ 'z') || ('0' ≤ c && c ≤ '9') || c = '-' || c = '.'

/-- loon.py parse_rule: recognizes only DOMAIN, DOMAIN-SUFFIX and IP-CIDR
lines of the typed-tuple dialect. -/
def parse_rule (line0 : Str) : ParseResult :=
  let line := strip line0
  if line = [] || startsWith (str "#") line || startsWith (str "//") line
      || startsWith (str "!") line then
    ⟨none, none, false, false⟩
  else if startsWith (str ".") line then
    ⟨none, none, false, true⟩
  else
    let parts := (splitOnChar ',' line).map strip
    if parts.length < 2 then ⟨none, none, false, false⟩
    else
      let rtype := upperStr parts.headI
      let rval := strip (lowerStr (parts.getD 1 []))
      if !(rtype = str "DOMAIN" || rtype = str "DOMAIN-SUFFIX" || rtype = str "IP-CIDR") then
        ⟨none, none, false, false⟩
      else if rval = [] then ⟨none, none, false, false⟩
      else if rtype = str "IP-CIDR" then
        match parseIPv4Network rval with
        | none => ⟨none, none, false, false⟩
        | some _ =>
          let hnr := decide (parts.length ≥ 3)
            && (parts.drop 2).any (fun p => lowerStr (strip p) = str "no-resolve")
          ⟨some rtype, some rval, true, hnr⟩
      else
        if !(rval.all domainCharOk) || startsWith (str ".") rval
            || endsWith (str ".") rval || hasSubstr (str "..") rval then
          ⟨none, none, false, false⟩
        else ⟨some rtype, some rval, true, false⟩

/-- loon.py normalize: IP-CIDR rules always get no-resolve appended (the two
branches of the source's if are identical); domains are left as given. -/
def normalize (rtype rval : Str) (has_no_resolve : Bool) : Str :=
  if rtype = str "IP-CIDR" then
    if has_no_resolve then rtype ++ ',' :: rval ++ str ",no-resolve"
    else rtype ++ ',' :: rval ++ str ",no-resolve"
  else rtype ++ ',' :: rval

/-- A node of loon.py's DomainTrie: the children mapping (a Python dict,
modelled as an association list in insertion order) plus the terminator
flag (the sentinel key of the source, reframed as a named boolean). -/
inductive DomainTrie where
  | node (term : Bool) (children : List (Str × DomainTrie))

def DomainTrie.term : DomainTrie → Bool
  | .node t _ => t

def DomainTrie.children : DomainTrie → List (Str × DomainTrie)
  | .node _ ch => ch

/-- Lookup of a key in the children mapping (first match). -/
def lookupChild (l : Str) : List (Str × DomainTrie) → Option DomainTrie
  | [] => none
  | (k, c) :: rest => if k = l then some c else lookupChild l rest

/-- Update the value of a key in place, or append the binding at the end
(Python dict insertion order). -/
def assocSet : List (Str × DomainTrie) → Str → DomainTrie → List (Str × DomainTrie)
  | [], l, v => [(l, v)]
  | (k, c) :: rest, l, v =>
    if k = l then (k, v) :: rest else (k, c) :: assocSet rest l v

/-- Walk or create nodes along a label path and set the terminator at its
end: the body of DomainTrie.add after the reversed label split. -/
def insertPath : DomainTrie → List Str → DomainTrie
  | .node _ ch, [] => .node true ch
  | .node t ch, l :: ls =>
    .node t (assocSet ch l (insertPath ((lookupChild l ch).getD (.node false [])) ls))

/-- loon.py DomainTrie.add. -/
def DomainTrie.add (t : DomainTrie) (suffixVal : Str) : DomainTrie :=
  insertPath t (splitOnChar '.' suffixVal).reverse

/-- Join labels with dots; applied to the accumulator of the coverage walk
(which is kept in reversed consumption order, so this is the source's
dot-join of reversed(matched)). -/
def joinDot : List Str → Str
  | [] => []
  | [x] => x
  | x :: xs => x ++ '.' :: joinDot xs

/-- The label-walking loop of DomainTrie.is_covered: at each node, after at
least one label was consumed, a terminator means covered; a missing child
means not covered; consuming every label ends at the node's own terminator
flag. -/
def coveredGo : DomainTrie → List Str → List Str → Bool × Option Str
  | t, [], matched =>
    (t.term, if matched = [] then none else some (joinDot matched))
  | t, p :: ps, matched =>
    if t.term && !(matched = []) then (true, some (joinDot matched))
    else
      match lookupChild p t.children with
      | none => (false, none)
      | some c => coveredGo c ps (p :: matched)

/-- loon.py DomainTrie.is_covered. -/
def DomainTrie.is_covered (t : DomainTrie) (domain : Str) : Bool × Option Str :=
  coveredGo t (splitOnChar '.' domain).reverse []

/-- loon.py IPCidrManager: the list of retained networks, each with the
string it was added as. -/
structure IPCidrManager where
  nets : List (IPv4Net × Str)

/-- Python a.supernet_of(b) for IPv4 networks: a's range contains b's range
(the broadcast address is the network address plus the host-space size
minus one). -/
def supernet_of (a b : IPv4Net) : Bool :=
  decide (a.addr ≤ b.addr)
    && decide (b.addr + (2 ^ (32 - b.plen) - 1) ≤ a.addr + (2 ^ (32 - a.plen) - 1))

/-- loon.py IPCidrManager.add: absorbed by the first existing supernet, or
else evict every existing subnet of the new network and append it.  The
cidr string reaching this method was already validated by parse_rule, so
the parse cannot fail there; the none branch is dead code kept for
totality. -/
def IPCidrManager.add (m : IPCidrManager) (cidr : Str) : (Bool × Option Str) × IPCidrManager :=
  match parseIPv4Network cidr with
  | none => ((false, none), m)
  | some network =>
    match m.nets.find? (fun en => supernet_of en.1 network) with
    | some en => ((true, some en.2), m)
    | none =>
      ((false, none),
        ⟨m.nets.filter (fun en => !supernet_of network en.1) ++ [(network, cidr)]⟩)

/-- One entry of loon.py's all_rules list:
(norm, rtype, rval, source, orig, has_no_resolve).  The sixth component is
dropped unused by the exact-dedup step of the source; it is retained here
as an unused field. -/
structure LoonRule where
  norm : Str
  rtype : Str
  rval : Str
  source : Str
  orig : Str
  hnr : Bool
deriving DecidableEq

/-- main's recomputation of has_no_resolve from the raw line for an
accepted IP-CIDR rule (lines 159-162 of loon.py). -/
def mainHNR (line : Str) : Bool :=
  let parts := (splitOnChar ',' line).map strip
  decide (parts.length ≥ 3)
    && (parts.drop 2).any (fun p => lowerStr (strip p) = str "no-resolve")

/-- The per-line collection loop of main for one source: returns the rules
kept, the valid count and the leading_dot count.  As in the source, any
line whose parse result has the fourth slot set is counted as leading_dot
and skipped, before ok is even looked at. -/
def collectLines (name : Str) : List Str → List LoonRule × Nat × Nat
  | [] => ([], 0, 0)
  | line :: rest =>
    let pr := parse_rule line
    let s := collectLines name rest
    if pr.flag then (s.1, s.2.1, s.2.2 + 1)
    else if pr.ok then
      let rtype := pr.rtype.getD []
      let rval := pr.rval.getD []
      let hnr := if rtype = str "IP-CIDR" then mainHNR line else false
      ({ norm := normalize rtype rval hnr, rtype := rtype, rval := rval,
         source := name, orig := strip line, hnr := hnr } :: s.1, s.2.1 + 1, s.2.2)
    else s

/-- Per-source statistics as collected by main (the error string of a
failed fetch is modelled by the errored flag). -/
structure SourceStat where
  name : Str
  total : Nat
  valid : Nat
  leading_dot : Nat
  errored : Bool
deriving DecidableEq

/-- One configured source with its fetched lines, or none for a fetch
failure. -/
structure SourceFetch where
  name : Str
  content : Option (List Str)

/-- The fetch loop of main over all sources, in declaration order: a failed
source contributes no rules and an errored stats entry. -/
def collectAll : List SourceFetch → List LoonRule × List SourceStat
  | [] => ([], [])
  | s :: rest =>
    let acc := collectAll rest
    match s.content with
    | none => (acc.1, ⟨s.name, 0, 0, 0, true⟩ :: acc.2)
    | some lines =>
      let c := collectLines s.name lines
      (c.1 ++ acc.1, ⟨s.name, lines.length, c.2.1, c.2.2, false⟩ :: acc.2)

/-- The exact-duplicate elimination loop of main: the first occurrence of
each norm is kept and every later one only counted. -/
def exactDedupGo (seen : List Str) : List LoonRule → List LoonRule × Nat
  | [] => ([], 0)
  | r :: rest =>
    if r.norm ∈ seen then
      ((exactDedupGo seen rest).1, (exactDedupGo seen rest).2 + 1)
    else
      (r :: (exactDedupGo (r.norm :: seen) rest).1, (exactDedupGo (r.norm :: seen) rest).2)

def exactDedup (l : List LoonRule) : List LoonRule × Nat := exactDedupGo [] l

/-- Python left-padding f-string, value:<width. -/
def padTo (n : Nat) (s : Str) : Str := s ++ List.replicate (n - s.length) ' '

/-- One audit-log line of main, with kindAndBy the kind,value citation
after the provenance marker. -/
def coverLogLine (orig kindAndBy : Str) : Str :=
  str "[包含去重] " ++ padTo 50 orig ++ str " # 溯源: " ++ kindAndBy

/-- The sort key of the DOMAIN-SUFFIX pass: ascending value length. -/
def suffixLenLe (a b : LoonRule) : Prop := a.rval.length ≤ b.rval.length

instance : DecidableRel suffixLenLe := fun _ _ => Nat.decLe _ _

instance : IsTotal LoonRule suffixLenLe := ⟨fun _ _ => Nat.le_total _ _⟩

instance : IsTrans LoonRule suffixLenLe := ⟨fun _ _ _ => Nat.le_trans⟩

/-- suffixes.sort(key length): Python's stable sort, modelled by the stable
insertion sort. -/
def sortSuffixRules (l : List LoonRule) : List LoonRule :=
  List.insertionSort suffixLenLe l

/-- The sort key expression of main line 239, int(value.split('/')[1]),
with its two failure modes made explicit: none when the value has no slash
(Python raises IndexError) and none when the field after the slash is not
a digit string, e.g. a dotted netmask (Python's int raises ValueError).
Either failure aborts the whole run before anything is written; loonMainRun
models that.  Of Python's further int() input forms (signs, inner
whitespace, digit underscores) none can reach this point through
parse_rule's validation. -/
def mainSortKey (v : Str) : Option Nat :=
  match (splitOnChar '/' v).get? 1 with
  | none => none
  | some p => if p ≠ [] && p.all isDigitChar then some (digitsToNat p) else none

/-- The sort key as a plain number, used for the ordering once the run is
known not to abort: loonMainRun sorts only after checking that mainSortKey
succeeded on every IP-CIDR rule, so the fallback value is never reached on
a run that writes output. -/
def plenKey (v : Str) : Nat := (mainSortKey v).getD 0

/-- main's IP-CIDR comparison: sort(key=prefix length, reverse=True), a
stable sort by descending key. -/
def ipKeyGe (a b : LoonRule) : Prop := plenKey b.rval ≤ plenKey a.rval

instance : DecidableRel ipKeyGe := fun _ _ => Nat.decLe _ _

def sortIpRules (l : List LoonRule) : List LoonRule :=
  List.insertionSort ipKeyGe l

/-- Python sorted() on strings: lexicographic comparison by code point. -/
def strLe : Str → Str → Bool
  | [], _ => true
  | _ :: _, [] => false
  | a :: as, b :: bs => if a < b then true else if b < a then false else strLe as bs

def strLeP (a b : Str) : Prop := strLe a b = true

instance : DecidableRel strLeP := fun a b => instDecidableEqBool (strLe a b) true

def sortStrs (l : List Str) : List Str := List.insertionSort strLeP l

/-- The DOMAIN-SUFFIX containment pass of main: a covered suffix is logged,
an uncovered one is inserted into the trie and kept.  Returns the kept
rules, the log lines and the trie handed on to the DOMAIN pass. -/
def suffixPassGo : DomainTrie → List LoonRule → List LoonRule × List Str × DomainTrie
  | t, [] => ([], [], t)
  | t, r :: rest =>
    match DomainTrie.is_covered t r.rval with
    | (true, byOpt) =>
      let s := suffixPassGo t rest
      (s.1, coverLogLine r.orig (str "DOMAIN-SUFFIX," ++ byOpt.getD []) :: s.2.1, s.2.2)
    | (false, _) =>
      let s := suffixPassGo (t.add r.rval) rest
      (r :: s.1, s.2.1, s.2.2)

/-- The DOMAIN pass of main: query-only against the trie of the suffix
pass. -/
def domainPassGo (t : DomainTrie) : List LoonRule → List LoonRule × List Str
  | [] => ([], [])
  | r :: rest =>
    let s := domainPassGo t rest
    match DomainTrie.is_covered t r.rval with
    | (true, byOpt) =>
      (s.1, coverLogLine r.orig (str "DOMAIN-SUFFIX," ++ byOpt.getD []) :: s.2)
    | (false, _) => (r :: s.1, s.2)

/-- The IP-CIDR pass of main over the containment index. -/
def cidrPassGo : IPCidrManager → List LoonRule → List LoonRule × List Str
  | _, [] => ([], [])
  | m, r :: rest =>
    match m.add r.rval with
    | ((true, byOpt), m') =>
      let s := cidrPassGo m' rest
      (s.1, coverLogLine r.orig (str "IP-CIDR," ++ byOpt.getD []) :: s.2)
    | ((false, _), m') =>
      let s := cidrPassGo m' rest
      (r :: s.1, s.2)

/-- Every intermediate value of loon.py main from the collected rules on,
gathered in one record. -/
structure LoonResult where
  unique : List LoonRule
  exact_dup : Nat
  suffixesSorted : List LoonRule
  keptSuffixes : List LoonRule
  keptDomains : List LoonRule
  ipsSorted : List LoonRule
  keptIps : List LoonRule
  cover_logs : List Str
  final_domains : List Str
  final_suffixes : List Str
  final_ips : List Str
  final_rules : List Str
deriving DecidableEq

/-- The deduplication stages of loon.py main, in source order: exact dedup,
suffix pass (length-sorted), domain pass over the same trie, IP-CIDR pass
(prefix-length sort with reverse=True). -/
def loonDedup (all_rules : List LoonRule) : LoonResult :=
  let unique := (exactDedup all_rules).1
  let suffixesSorted := sortSuffixRules (unique.filter (fun r => r.rtype = str "DOMAIN-SUFFIX"))
  let sp := suffixPassGo (.node false []) suffixesSorted
  let domains := unique.filter (fun r => r.rtype = str "DOMAIN")
  let dp := domainPassGo sp.2.2 domains
  let ipsSorted := sortIpRules (unique.filter (fun r => r.rtype = str "IP-CIDR"))
  let cp := cidrPassGo ⟨[]⟩ ipsSorted
  let final_domains := dp.1.map LoonRule.norm
  let final_suffixes := sp.1.map LoonRule.norm
  let final_ips := cp.1.map LoonRule.norm
  { unique := unique
    exact_dup := (exactDedup all_rules).2
    suffixesSorted := suffixesSorted
    keptSuffixes := sp.1
    keptDomains := dp.1
    ipsSorted := ipsSorted
    keptIps := cp.1
    cover_logs := sp.2.1 ++ dp.2 ++ cp.2
    final_domains := final_domains
    final_suffixes := final_suffixes
    final_ips := final_ips
    final_rules := sortStrs final_domains ++ sortStrs final_suffixes ++ sortStrs final_ips }

/-- loon.py main after the fetches.  No collected rule at all means the
run returns before writing anything (none).  If any surviving IP-CIDR
value has no computable sort key (no slash, or a dotted netmask after the
slash), the key expression at line 239 raises and the run dies before the
writes: also none.  Otherwise every pass runs and both artifacts are
written from the result (some).  The key check is placed before the pass
computations here; in the source the suffix and domain passes run first,
but they have no observable effect when the sort then raises, so the
artifact behaviour is the same. -/
def loonMainRun (sources : List SourceFetch) : Option LoonResult :=
  let all_rules := (collectAll sources).1
  if all_rules = [] then none
  else if ((exactDedup all_rules).1.filter (fun r => r.rtype = str "IP-CIDR")).all
      (fun r => (mainSortKey r.rval).isSome) then
    some (loonDedup all_rules)
  else none

end Loon

namespace Adguard

/-- Python str.replace(pat, "") for a non-empty pattern, by fuel on the
string length (each step consumes at least one character). -/
def deleteAllGo (pat : Str) : Nat → Str → Str
  | 0, s => s
  | fuel + 1, s =>
    match s with
    | [] => []
    | c :: rest =>
      if pat.isPrefixOf (c :: rest) then deleteAllGo pat fuel (rest.drop (pat.length - 1))
      else c :: deleteAllGo pat fuel rest

def deleteAll (pat s : Str) : Str := deleteAllGo pat s.length s

/-- The domain extracted from one AGH rule in apply_containment_dedup:
text before the dollar, with the markers removed in source order, then
lowercased. -/
def domainOf (r : Str) : Str :=
  lowerStr (deleteAll (str "^")
    (deleteAll (str "@@") (deleteAll (str "||") (splitOnChar '$' r).headI)))

def countDots (s : Str) : Nat := s.countP (fun c => decide (c = '.'))

/-- Sort key of apply_containment_dedup: ascending dot count of the
domain. -/
def dotCountLe (a b : Str × Str) : Prop := countDots a.1 ≤ countDots b.1

instance : DecidableRel dotCountLe := fun _ _ => Nat.decLe _ _

/-- The parent search of apply_containment_dedup: the dot-joined label
suffixes of dom, from the shortest (the last label) up to all labels but
the first, the first one found in seen_domains. -/
def findParent (seen : List Str) (parts : List Str) : Option Str :=
  ((List.range' 1 (parts.length - 1)).reverse.map
      (fun i => Loon.joinDot (parts.drop i))).find? (fun par => decide (par ∈ seen))

/-- One removal-log line of apply_containment_dedup. -/
def adLogLine (ruleType original parent : Str) : Str :=
  '[' :: ruleType ++ str "] " ++ Loon.padTo 45 original ++ str " # 父域覆盖: " ++ parent

/-- The main loop of apply_containment_dedup over the sorted
(domain, original) pairs. -/
def containDedupGo (ruleType : Str) (seen : List Str) :
    List (Str × Str) → List Str × List Str
  | [] => ([], [])
  | (dom, original) :: rest =>
    match findParent seen (splitOnChar '.' dom) with
    | some parent =>
      let s := containDedupGo ruleType seen rest
      (s.1, adLogLine ruleType original parent :: s.2)
    | none =>
      let s := containDedupGo ruleType (dom :: seen) rest
      (original :: s.1, s.2)

/-- adguard.py apply_containment_dedup. -/
def apply_containment_dedup (rules : List Str) (ruleType : Str) : List Str × List Str :=
  if rules = [] then ([], [])
  else
    let processed := (rules.map (fun r => (domainOf r, r))).filter (fun p => !(p.1 = []))
    let sorted := List.insertionSort dotCountLe processed
    containDedupGo ruleType [] sorted

/-- The per-source line filter of adguard.py main: a stripped line that is
empty or starts with an exclamation mark or a hash sign is skipped, every
other line is kept as a valid rule.  Returns (valid, skip_count). -/
def filterLines : List Str → List Str × Nat
  | [] => ([], 0)
  | line0 :: rest =>
    let line := strip line0
    let (v, sk) := filterLines rest
    if line = [] || startsWith (str "!") line || startsWith (str "#") line then (v, sk + 1)
    else (line :: v, sk)

/-- Python list(dict.fromkeys(lst)): keep the first occurrence of each
element. -/
def fromkeysGo (seen : List Str) : List Str → List Str
  | [] => []
  | x :: rest =>
    if x ∈ seen then fromkeysGo seen rest else x :: fromkeysGo (x :: seen) rest

def fromkeysDedup (l : List Str) : List Str := fromkeysGo [] l

/-- One configured adguard source with its fetched text lines; a fetch
failure is modelled as none, which fetch_remote_content turns into the
empty content with raw count 0. -/
structure Source where
  name : Str
  content : Option (List Str)

structure SourceStat where
  name : Str
  raw_line : Nat
  skip : Nat
  total_rule : Nat
  black : Nat
  white : Nat
  other : Nat
deriving DecidableEq

/-- The fetch-and-filter loop of adguard.py main, in source order. -/
def collectAll : List Source → List Str × List SourceStat × Nat × Nat
  | [] => ([], [], 0, 0)
  | s :: rest =>
    let acc := collectAll rest
    let lines := s.content.getD []
    let f := filterLines lines
    let valid := f.1
    let black := valid.countP (fun r => startsWith (str "||") r)
    let white := valid.countP (fun r => startsWith (str "@@") r)
    (valid ++ acc.1,
      ⟨s.name, lines.length, f.2, valid.length, black, white, valid.length - black - white⟩
        :: acc.2.1,
      lines.length + acc.2.2.1, f.2 + acc.2.2.2)

/-- The whole observable state of one adguard.py main run; outputLines and
logLines are the artifact contents (the files are written from them
unconditionally, there is no empty-run early return in this script). -/
structure Result where
  all_raw_rules : List Str
  unique_rules : List Str
  cross_dedup : Nat
  white_final : List Str
  white_removed : List Str
  black_final : List Str
  black_removed : List Str
  other_list : List Str
  final_rules : List Str
  outputLines : List Str
  logLines : List Str

/-- adguard.py main, with the generation timestamp passed in as now.  The
header statistics lines are modelled structurally (their decorative
number formatting is abbreviated, their information content kept). -/
def adguardMain (now : Str) (sources : List Source) : Result :=
  let acc := collectAll sources
  let all_raw_rules := acc.1
  let stats := acc.2.1
  let unique_rules := fromkeysDedup all_raw_rules
  let cross_dedup := all_raw_rules.length - unique_rules.length
  let white_list := unique_rules.filter (fun r => startsWith (str "@@") r)
  let black_list := unique_rules.filter (fun r => startsWith (str "||") r)
  let other_list := unique_rules.filter
    (fun r => !(startsWith (str "@@") r || startsWith (str "||") r))
  let wp := apply_containment_dedup white_list (str "白名单")
  let bp := apply_containment_dedup black_list (str "黑名单")
  let final_rules := wp.1 ++ bp.1 ++ other_list
  let header :=
    str "# AGH规则合并" ::
    (str "# 生成时间（北京时间）: " ++ now) ::
    str "# 订阅地址：https://w-1349.github.io/scripts/adguard.txt" ::
    (stats.map (fun s => str "#   " ++ s.name)) ++
    [str "# 原始总行数等统计略"]
  { all_raw_rules := all_raw_rules
    unique_rules := unique_rules
    cross_dedup := cross_dedup
    white_final := wp.1
    white_removed := wp.2
    black_final := bp.1
    black_removed := bp.2
    other_list := other_list
    final_rules := final_rules
    outputLines := header ++ final_rules
    logLines := (str "# AGH 过滤明细日志 - " ++ now) :: List.replicate 80 '='
      :: (wp.2 ++ bp.2) }

end Adguard

/-- Decimal digit characters of a natural number, by structural fuel. -/
def natDigitsGo : Nat → Nat → Str
  | 0, _ => []
  | fuel + 1, n =>
    if n < 10 then [Char.ofNat (48 + n)]
    else natDigitsGo fuel (n / 10) ++ [Char.ofNat (48 + n % 10)]

def natDigits (n : Nat) : Str := natDigitsGo (n + 1) n

/-- Dotted-quad rendering of an IPv4 address value. -/
def renderIPv4 (addr : Nat) : Str :=
  natDigits (addr / 2 ^ 24) ++ '.' :: natDigits (addr / 2 ^ 16 % 256)
    ++ '.' :: natDigits (addr / 2 ^ 8 % 256) ++ '.' :: natDigits (addr % 256)

/-- Follows the spec's words, for comparison with the code's normalize: the
canonical network address of the value, host bits masked off, rendered as
network slash prefixLength comma no-resolve. -/
def specCanonicalValue (v : Str) : Option Str :=
  (parseIPv4Network v).map
    (fun n => renderIPv4 n.addr ++ '/' :: natDigits n.plen ++ str ",no-resolve")

/-- b has a as a literal dot-suffix: b is some (possibly empty) text, then
a dot, then a. -/
def dotSuffix (a b : Str) : Prop := ∃ w : Str, b = w ++ '.' :: a

/-- The boolean coverage verdict of the trie. -/
def trieCovered (t : Loon.DomainTrie) (d : Str) : Bool := (t.is_covered d).1

/-- A trie absorbs a value when the value itself and everything having it
as a literal dot-suffix is covered. -/
def trieAbsorbs (t : Loon.DomainTrie) (v : Str) : Prop :=
  trieCovered t v = true ∧ ∀ d, dotSuffix v d → trieCovered t d = true

/-- The three input lines of the spec's Scenario B. -/
def scenarioBLines : List Str :=
  [str "IP-CIDR,10.0.0.0/8", str "IP-CIDR,10.1.0.0/16", str "IP-CIDR,192.168.0.0/24"]

def scenarioBSources : List Loon.SourceFetch := [⟨str "anti-ad", some scenarioBLines⟩]

def scenarioBResult : Loon.LoonResult := Loon.loonDedup (Loon.collectAll scenarioBSources).1

/-- The three input lines of the spec's Scenario A. -/
def scenarioALines : List Str :=
  [str "DOMAIN-SUFFIX,ads.example.com", str "DOMAIN,track.ads.example.com",
    str "DOMAIN,ads.example.com"]

def scenarioASources : List Loon.SourceFetch := [⟨str "anti-ad", some scenarioALines⟩]

def scenarioAResult : Loon.LoonResult := Loon.loonDedup (Loon.collectAll scenarioASources).1

/-- The two input lines exercising the no-resolve modifier handling. -/
def noResolvePairLines : List Str :=
  [str "IP-CIDR,10.0.0.0/8", str "IP-CIDR,10.0.0.0/8,no-resolve"]

/-!  Theorems.  -/

theorem splitOnChar_ne_nil (sep : Char) (s : Str) : splitOnChar sep s ≠ [] := by
  induction s with
  | nil => simp [splitOnChar]
  | cons c rest ih =>
    simp only [splitOnChar]
    rcases h : splitOnChar sep rest with _ | ⟨g, gs⟩
    · exact absurd h ih
    · by_cases hc : c = sep <;> simp [hc]

/-- Claim C1: the claim states that surviving IP_CIDR rules are fed to the
containment index sorted by ascending prefix length (widest first).  The
code sorts with reverse=True, so on Scenario B the feed order of prefix
lengths is 24, 16, 8 — descending, not ascending: a rule with smaller
prefix length (10.0.0.0/8) is inserted after rules with larger prefix
lengths. -/
theorem claim1_cidr_feed_order_descending :
    scenarioBResult.ipsSorted.map (fun r => Loon.plenKey r.rval) = [24, 16, 8] ∧
    ¬ List.Pairwise (fun a b => a ≤ b)
      (scenarioBResult.ipsSorted.map (fun r => Loon.plenKey r.rval)) := by
  decide

/-- Claim C2: the claim states that on Scenario B only 10.0.0.0/8 and
192.168.0.0/24 survive and 10.1.0.0/16 is absorbed with an audit record
citing IP-CIDR,10.0.0.0/8.  The code keeps all three rules (10.1.0.0/16 is
appended to the survivors before 10.0.0.0/8 is even considered, and is then
only silently evicted from the index) and writes no audit record at all. -/
theorem claim2_scenarioB_all_three_survive :
    scenarioBResult.final_ips =
      [str "IP-CIDR,192.168.0.0/24,no-resolve", str "IP-CIDR,10.1.0.0/16,no-resolve",
        str "IP-CIDR,10.0.0.0/8,no-resolve"] ∧
    scenarioBResult.cover_logs = [] := by
  decide

/-- Claim C3: the claim states that the surviving IP networks after
CIDR_PASS form an antichain under containment.  On Scenario B the survivors
include both 10.0.0.0/8 and its subnet 10.1.0.0/16, and the former is a
supernet of the latter. -/
theorem claim3_survivors_not_antichain :
    str "IP-CIDR,10.0.0.0/8,no-resolve" ∈ scenarioBResult.final_ips ∧
    str "IP-CIDR,10.1.0.0/16,no-resolve" ∈ scenarioBResult.final_ips ∧
    parseIPv4Network (str "10.0.0.0/8") = some ⟨167772160, 8⟩ ∧
    parseIPv4Network (str "10.1.0.0/16") = some ⟨167837696, 16⟩ ∧
    Loon.supernet_of ⟨167772160, 8⟩ ⟨167837696, 16⟩ = true := by
  decide

/-- Claim C5: on Scenario A the only survivor is the suffix rule; the
DOMAIN rule track.ads.example.com is removed by a mid-walk suffix match and
the DOMAIN rule ads.example.com by the exact self-match at the end of the
walk, both citing DOMAIN-SUFFIX,ads.example.com. -/
theorem claim5_scenarioA_only_suffix_survives :
    scenarioAResult.final_suffixes = [str "DOMAIN-SUFFIX,ads.example.com"] ∧
    scenarioAResult.final_domains = [] ∧
    scenarioAResult.cover_logs =
      [Loon.coverLogLine (str "DOMAIN,track.ads.example.com")
          (str "DOMAIN-SUFFIX,ads.example.com"),
        Loon.coverLogLine (str "DOMAIN,ads.example.com")
          (str "DOMAIN-SUFFIX,ads.example.com")] ∧
    (Loon.DomainTrie.add (.node false []) (str "ads.example.com")).is_covered
      (str "track.ads.example.com") = (true, some (str "ads.example.com")) ∧
    (Loon.DomainTrie.add (.node false []) (str "ads.example.com")).is_covered
      (str "ads.example.com") = (true, some (str "ads.example.com")) := by
  decide

/-- Claim C10: the claim states that an IP-CIDR line with no-resolve and
one without normalize identically and exact-dedup removes one of them.  The
normalize outputs are indeed identical, but main reads the fourth slot of
parse_rule (has_no_resolve for an accepted IP-CIDR rule) as is_leading_dot,
so the no-resolve line never reaches exact-dedup: only one rule is
collected, the leading-dot counter reads 1 and the exact-duplicate count of
the dedup stage is 0. -/
theorem claim10_noresolve_line_dropped_before_dedup :
    Loon.normalize (str "IP-CIDR") (str "10.0.0.0/8") true
      = Loon.normalize (str "IP-CIDR") (str "10.0.0.0/8") false ∧
    (Loon.collectLines (str "s") noResolvePairLines).1.map Loon.LoonRule.norm
      = [str "IP-CIDR,10.0.0.0/8,no-resolve"] ∧
    (Loon.collectLines (str "s") noResolvePairLines).2.2 = 1 ∧
    (Loon.exactDedup (Loon.collectLines (str "s") noResolvePairLines).1).2 = 0 := by
  decide

/-- Claim C4, counterexample: the line IP-CIDR,10.0.0.1/8 is accepted (the
value parses as a valid IPv4 network under strict=false), the spec-side
canonical rendering of its value is 10.0.0.0/8,no-resolve, but normalize
emits the value verbatim with its host bits intact. -/
theorem claim4_counterexample_host_bits_not_masked :
    Loon.parse_rule (str "IP-CIDR,10.0.0.1/8")
      = ⟨some (str "IP-CIDR"), some (str "10.0.0.1/8"), true, false⟩ ∧
    Loon.normalize (str "IP-CIDR") (str "10.0.0.1/8") false
      = str "IP-CIDR,10.0.0.1/8,no-resolve" ∧
    specCanonicalValue (str "10.0.0.1/8") = some (str "10.0.0.0/8,no-resolve") ∧
    Loon.normalize (str "IP-CIDR") (str "10.0.0.1/8") false
      ≠ str "IP-CIDR," ++ str "10.0.0.0/8,no-resolve" := by
  decide

/-- Claim C4, amended: for every accepted dialect-B IP-CIDR line the
normalized form is the type, the verbatim (lowercased, stripped) value
field and no-resolve — the value's host bits are validated under
strict=false semantics but are not masked off in the rendered output. -/
theorem claim4_amended_normalize_keeps_value_verbatim (line v : Str) (b : Bool)
    (_h : Loon.parse_rule line = ⟨some (str "IP-CIDR"), some v, true, b⟩) :
    ∀ b', Loon.normalize (str "IP-CIDR") v b' = str "IP-CIDR" ++ ',' :: v ++ str ",no-resolve" := by
  intro b'
  cases b' <;> simp [Loon.normalize]

theorem claim4_witness :
    Loon.normalize (str "IP-CIDR") (str "10.0.0.1/8") true
      = str "IP-CIDR" ++ ',' :: str "10.0.0.1/8" ++ str ",no-resolve" :=
  claim4_amended_normalize_keeps_value_verbatim (str "IP-CIDR,10.0.0.1/8")
    (str "10.0.0.1/8") false (by decide) true

/-- Claim C6, counterexample: adguard.py does not reject a leading-dot
line at all — its line filter keeps .example.com as a valid rule and skips
nothing. -/
theorem claim6_counterexample_adguard_keeps_leading_dot :
    Adguard.filterLines [str ".example.com"] = ([str ".example.com"], 0) := by
  decide

theorem lookupChild_assocSet_self (ch : List (Str × Loon.DomainTrie)) (l : Str)
    (v : Loon.DomainTrie) : Loon.lookupChild l (Loon.assocSet ch l v) = some v := by
  induction ch with
  | nil => simp [Loon.assocSet, Loon.lookupChild]
  | cons kc rest ih =>
    obtain ⟨k, c⟩ := kc
    by_cases hk : k = l
    · simp [Loon.assocSet, Loon.lookupChild, hk]
    · simp [Loon.assocSet, Loon.lookupChild, hk, ih]

theorem lookupChild_assocSet_ne (ch : List (Str × Loon.DomainTrie)) (l k : Str)
    (v : Loon.DomainTrie) (h : k ≠ l) :
    Loon.lookupChild k (Loon.assocSet ch l v) = Loon.lookupChild k ch := by
  have hlk : l ≠ k := Ne.symm h
  induction ch with
  | nil => simp [Loon.assocSet, Loon.lookupChild, hlk]
  | cons kc rest ih =>
    obtain ⟨k', c⟩ := kc
    by_cases hk : k' = l
    · subst hk
      simp [Loon.assocSet, Loon.lookupChild, hlk]
    · by_cases hk2 : k' = k
      · subst hk2
        simp [Loon.assocSet, Loon.lookupChild, hk]
      · simp [Loon.assocSet, Loon.lookupChild, hk, hk2, ih]

theorem insertPath_nil_term (t : Loon.DomainTrie) : (Loon.insertPath t []).term = true := by
  cases t; rfl

theorem insertPath_cons_term (t : Loon.DomainTrie) (l : Str) (ls : List Str) :
    (Loon.insertPath t (l :: ls)).term = t.term := by
  cases t; rfl

theorem insertPath_nil_children (t : Loon.DomainTrie) :
    (Loon.insertPath t []).children = t.children := by
  cases t; rfl

theorem insertPath_cons_children (t : Loon.DomainTrie) (l : Str) (ls : List Str) :
    (Loon.insertPath t (l :: ls)).children
      = Loon.assocSet t.children l
          (Loon.insertPath ((Loon.lookupChild l t.children).getD (.node false [])) ls) := by
  cases t; rfl

theorem coveredGo_insertPath_exact (p : List Str) :
    ∀ (t : Loon.DomainTrie) (m : List Str),
      (Loon.coveredGo (Loon.insertPath t p) p m).1 = true := by
  induction p with
  | nil =>
    intro t m
    simp [Loon.coveredGo, insertPath_nil_term]
  | cons l ls ih =>
    intro t m
    rw [Loon.coveredGo]
    by_cases hc : ((Loon.insertPath t (l :: ls)).term && !(m = [])) = true
    · simp [hc]
    · simp only [hc]
      rw [insertPath_cons_children, lookupChild_assocSet_self]
      simp only [Bool.if_false_right]
      split
      · rfl
      · exact ih _ (l :: m)

theorem coveredGo_insertPath_ext (p : List Str) :
    ∀ (t : Loon.DomainTrie) (ext m : List Str), ext ≠ [] → (p ≠ [] ∨ m ≠ []) →
      (Loon.coveredGo (Loon.insertPath t p) (p ++ ext) m).1 = true := by
  induction p with
  | nil =>
    intro t ext m hext hm
    have hm' : m ≠ [] := hm.resolve_left (fun hh => hh rfl)
    cases ext with
    | nil => exact absurd rfl hext
    | cons e es =>
      rw [List.nil_append, Loon.coveredGo]
      simp [insertPath_nil_term, hm']
  | cons l ls ih =>
    intro t ext m hext _
    rw [List.cons_append, Loon.coveredGo]
    by_cases hc : ((Loon.insertPath t (l :: ls)).term && !(m = [])) = true
    · simp [hc]
    · simp only [hc]
      rw [insertPath_cons_children, lookupChild_assocSet_self]
      simp only [Bool.if_false_right]
      split
      · rfl
      · exact ih _ ext (l :: m) hext (Or.inr (by simp))

theorem coveredGo_insertPath_mono (path : List Str) :
    ∀ (t : Loon.DomainTrie) (p2 m : List Str),
      (Loon.coveredGo t path m).1 = true →
      (Loon.coveredGo (Loon.insertPath t p2) path m).1 = true := by
  induction path with
  | nil =>
    intro t p2 m h
    rw [Loon.coveredGo] at h ⊢
    cases p2 with
    | nil => simp [insertPath_nil_term]
    | cons l ls => simpa [insertPath_cons_term] using h
  | cons p ps ih =>
    intro t p2 m h
    rw [Loon.coveredGo] at h
    by_cases hc : (t.term && !(m = [])) = true
    · rw [Loon.coveredGo]
      have hm : (!(m = [])) = (true : Bool) := (Bool.and_eq_true_iff.mp hc).2
      cases p2 with
      | nil =>
        have hcond : ((Loon.insertPath t []).term && !(m = [])) = true := by
          rw [insertPath_nil_term, hm]; rfl
        rw [if_pos hcond]
      | cons l ls =>
        have hcond : ((Loon.insertPath t (l :: ls)).term && !(m = [])) = true := by
          rw [insertPath_cons_term]; exact hc
        rw [if_pos hcond]
    · rw [if_neg hc] at h
      rcases hl : Loon.lookupChild p t.children with _ | c
      · rw [hl] at h
        simp at h
      · rw [hl] at h
        rw [Loon.coveredGo]
        by_cases hc2 : ((Loon.insertPath t p2).term && !(m = [])) = true
        · rw [if_pos hc2]
        · rw [if_neg hc2]
          cases p2 with
          | nil =>
            rw [insertPath_nil_children, hl]
            exact h
          | cons l ls =>
            rw [insertPath_cons_children]
            by_cases hpl : p = l
            · subst hpl
              rw [lookupChild_assocSet_self]
              have hc0 : (Loon.lookupChild p t.children).getD (.node false []) = c := by
                rw [hl]; rfl
              rw [hc0]
              exact ih c ls (p :: m) h
            · rw [lookupChild_assocSet_ne _ _ _ _ hpl, hl]
              exact h

theorem splitOnChar_append_sep (sep : Char) (w a : Str) :
    splitOnChar sep (w ++ sep :: a) = splitOnChar sep w ++ splitOnChar sep a := by
  induction w with
  | nil =>
    rcases h : splitOnChar sep a with _ | ⟨g, gs⟩
    · exact absurd h (splitOnChar_ne_nil sep a)
    · simp [splitOnChar, h]
  | cons c w' ih =>
    rcases h : splitOnChar sep w' with _ | ⟨g, gs⟩
    · exact absurd h (splitOnChar_ne_nil sep w')
    · simp only [List.cons_append, splitOnChar, List.append_eq]
      rw [ih, h]
      by_cases hc : c = sep <;> simp [hc]

theorem trieCovered_add_self (t : Loon.DomainTrie) (v : Str) :
    trieCovered (t.add v) v = true := by
  unfold trieCovered Loon.DomainTrie.is_covered Loon.DomainTrie.add
  exact coveredGo_insertPath_exact _ t []

theorem trieCovered_add_dotSuffix (t : Loon.DomainTrie) (v d : Str)
    (h : dotSuffix v d) : trieCovered (t.add v) d = true := by
  obtain ⟨w, rfl⟩ := h
  unfold trieCovered Loon.DomainTrie.is_covered Loon.DomainTrie.add
  rw [splitOnChar_append_sep, List.reverse_append]
  refine coveredGo_insertPath_ext _ t _ [] ?_ (Or.inl ?_)
  · simpa using splitOnChar_ne_nil '.' w
  · simpa using splitOnChar_ne_nil '.' v

theorem trieCovered_add_mono (t : Loon.DomainTrie) (v d : Str)
    (h : trieCovered t d = true) : trieCovered (t.add v) d = true := by
  unfold trieCovered Loon.DomainTrie.is_covered at h
  unfold trieCovered Loon.DomainTrie.is_covered Loon.DomainTrie.add
  exact coveredGo_insertPath_mono _ t _ [] h

theorem trieAbsorbs_add_self (t : Loon.DomainTrie) (v : Str) :
    trieAbsorbs (t.add v) v :=
  ⟨trieCovered_add_self t v, fun d hd => trieCovered_add_dotSuffix t v d hd⟩

theorem trieAbsorbs_add_mono (t : Loon.DomainTrie) (s v : Str)
    (h : trieAbsorbs t v) : trieAbsorbs (t.add s) v :=
  ⟨trieCovered_add_mono t s v h.1, fun d hd => trieCovered_add_mono t s d (h.2 d hd)⟩

theorem dotSuffix_length_lt {a b : Str} (h : dotSuffix a b) : a.length < b.length := by
  obtain ⟨w, rfl⟩ := h
  simp [List.length_append]
  omega

theorem suffixPassGo_cons_covered (t : Loon.DomainTrie) (r : Loon.LoonRule)
    (rest : List Loon.LoonRule) (byOpt : Option Str)
    (hcov : Loon.DomainTrie.is_covered t r.rval = (true, byOpt)) :
    (Loon.suffixPassGo t (r :: rest)).1 = (Loon.suffixPassGo t rest).1 := by
  simp [Loon.suffixPassGo, hcov]

theorem suffixPassGo_cons_kept (t : Loon.DomainTrie) (r : Loon.LoonRule)
    (rest : List Loon.LoonRule) (byOpt : Option Str)
    (hcov : Loon.DomainTrie.is_covered t r.rval = (false, byOpt)) :
    (Loon.suffixPassGo t (r :: rest)).1
      = r :: (Loon.suffixPassGo (t.add r.rval) rest).1 := by
  simp [Loon.suffixPassGo, hcov]

theorem suffixPassGo_sublist (rs : List Loon.LoonRule) :
    ∀ t : Loon.DomainTrie, List.Sublist (Loon.suffixPassGo t rs).1 rs := by
  induction rs with
  | nil => intro t; simp [Loon.suffixPassGo]
  | cons r rest ih =>
    intro t
    rcases hcov : Loon.DomainTrie.is_covered t r.rval with ⟨cov, byOpt⟩
    cases cov with
    | false =>
      rw [suffixPassGo_cons_kept t r rest byOpt hcov]
      exact List.Sublist.cons₂ r (ih (t.add r.rval))
    | true =>
      rw [suffixPassGo_cons_covered t r rest byOpt hcov]
      exact List.Sublist.cons r (ih t)

theorem suffixPassGo_antichain (rs : List Loon.LoonRule) :
    ∀ t : Loon.DomainTrie,
      List.Pairwise (fun a b => ¬ dotSuffix a.rval b.rval) (Loon.suffixPassGo t rs).1 ∧
      ∀ r ∈ (Loon.suffixPassGo t rs).1, ∀ v, trieAbsorbs t v → ¬ dotSuffix v r.rval := by
  induction rs with
  | nil => intro t; simp [Loon.suffixPassGo]
  | cons r rest ih =>
    intro t
    rcases hcov : Loon.DomainTrie.is_covered t r.rval with ⟨cov, byOpt⟩
    cases cov with
    | true =>
      obtain ⟨ihp, iha⟩ := ih t
      rw [suffixPassGo_cons_covered t r rest byOpt hcov]
      exact ⟨ihp, iha⟩
    | false =>
      obtain ⟨ihp, iha⟩ := ih (t.add r.rval)
      have hcf : trieCovered t r.rval = false := by
        unfold trieCovered; rw [hcov]
      rw [suffixPassGo_cons_kept t r rest byOpt hcov]
      constructor
      · refine List.Pairwise.cons ?_ ihp
        intro r' hr'
        exact iha r' hr' r.rval (trieAbsorbs_add_self t r.rval)
      · intro r'' hmem v hv
        rcases List.mem_cons.mp hmem with heq | hmem'
        · subst heq
          intro hds
          have hcc := hv.2 r''.rval hds
          rw [hcf] at hcc
          exact Bool.false_ne_true hcc
        · exact iha r'' hmem' v (trieAbsorbs_add_mono t r.rval v hv)

theorem suffixPass_antichain_vals (rules : List Loon.LoonRule) :
    List.Pairwise (fun a b => ¬ dotSuffix a b ∧ ¬ dotSuffix b a)
      ((Loon.suffixPassGo (.node false []) (Loon.sortSuffixRules rules)).1.map
        Loon.LoonRule.rval) := by
  have h1 := (suffixPassGo_antichain (Loon.sortSuffixRules rules) (.node false [])).1
  have hsor : List.Pairwise Loon.suffixLenLe (Loon.sortSuffixRules rules) :=
    List.sorted_insertionSort Loon.suffixLenLe rules
  have hsub := suffixPassGo_sublist (Loon.sortSuffixRules rules) (.node false [])
  have h2 := List.Pairwise.sublist hsub hsor
  have h3 := h1.and h2
  refine List.pairwise_map.mpr (h3.imp ?_)
  intro a b hab
  obtain ⟨hnds, hlen⟩ := hab
  refine ⟨hnds, fun hds => ?_⟩
  exact absurd (dotSuffix_length_lt hds) (Nat.not_lt.mpr hlen)

/-- Claim C9: for every input, the DOMAIN-SUFFIX rules retained by the
suffix pass form an antichain under literal dot-suffix containment: of two
distinct retained values, neither is a dot-suffix of the other.  The
shorter-first sort makes longer suffixes meet their already-inserted
parents, and an exact repeat of an inserted suffix is covered by the
terminator at the end of its own walk. -/
theorem claim9_kept_suffixes_antichain (sources : List Loon.SourceFetch) :
    List.Pairwise (fun a b => ¬ dotSuffix a b ∧ ¬ dotSuffix b a)
      ((Loon.loonDedup (Loon.collectAll sources).1).keptSuffixes.map Loon.LoonRule.rval) := by
  have hk : (Loon.loonDedup (Loon.collectAll sources).1).keptSuffixes
      = (Loon.suffixPassGo (.node false [])
          (Loon.sortSuffixRules ((Loon.exactDedup (Loon.collectAll sources).1).1.filter
            (fun r => r.rtype = str "DOMAIN-SUFFIX")))).1 := rfl
  rw [hk]
  exact suffixPass_antichain_vals _

theorem exactDedupGo_idem (l : List Loon.LoonRule) :
    ∀ seen, Loon.exactDedupGo seen (Loon.exactDedupGo seen l).1
      = ((Loon.exactDedupGo seen l).1, 0) := by
  induction l with
  | nil => intro seen; simp [Loon.exactDedupGo]
  | cons r rest ih =>
    intro seen
    by_cases h : r.norm ∈ seen
    · simp only [Loon.exactDedupGo, if_pos h]
      exact ih seen
    · simp only [Loon.exactDedupGo, if_neg h]
      rw [ih (r.norm :: seen)]

theorem fromkeysGo_idem (l : List Str) :
    ∀ seen, Adguard.fromkeysGo seen (Adguard.fromkeysGo seen l)
      = Adguard.fromkeysGo seen l := by
  induction l with
  | nil => intro seen; simp [Adguard.fromkeysGo]
  | cons x rest ih =>
    intro seen
    by_cases h : x ∈ seen
    · simp only [Adguard.fromkeysGo, if_pos h]
      exact ih seen
    · simp only [Adguard.fromkeysGo, if_neg h]
      rw [ih (x :: seen)]

/-- Claim C8: exact-duplicate elimination is idempotent in both scripts:
re-running loon.py's norm-keyed dedup loop on its own survivor list keeps
the list unchanged and finds zero further duplicates, and re-running
adguard.py's dict.fromkeys dedup on its own output is the identity. -/
theorem claim8_exact_dedup_idempotent :
    (∀ rules : List Loon.LoonRule,
      Loon.exactDedup (Loon.exactDedup rules).1 = ((Loon.exactDedup rules).1, 0)) ∧
    (∀ l : List Str,
      Adguard.fromkeysDedup (Adguard.fromkeysDedup l) = Adguard.fromkeysDedup l) :=
  ⟨fun rules => exactDedupGo_idem rules [], fun l => fromkeysGo_idem l []⟩

theorem parse_rule_leading_dot (line : Str) (t : Str) (h : strip line = '.' :: t) :
    Loon.parse_rule line = ⟨none, none, false, true⟩ := by
  simp only [Loon.parse_rule, h, startsWith, str]
  norm_num [List.isPrefixOf]
  exact ⟨⟨⟨by simp, by decide⟩, fun hc => absurd hc (by decide)⟩, by decide⟩

theorem collectLines_leading_dot_count (name : Str) (lines : List Str) :
    (Loon.collectLines name lines).2.2
      = lines.countP (fun l => (Loon.parse_rule l).flag) := by
  induction lines with
  | nil => simp [Loon.collectLines]
  | cons line rest ih =>
    by_cases hf : (Loon.parse_rule line).flag
    · simp [Loon.collectLines, hf, List.countP_cons, ih]
    · by_cases ho : (Loon.parse_rule line).ok <;>
        simp [Loon.collectLines, hf, ho, List.countP_cons, ih]

theorem collectLines_valid_count (name : Str) (lines : List Str) :
    (Loon.collectLines name lines).2.1
      = lines.countP (fun l => !(Loon.parse_rule l).flag && (Loon.parse_rule l).ok) := by
  induction lines with
  | nil => simp [Loon.collectLines]
  | cons line rest ih =>
    by_cases hf : (Loon.parse_rule line).flag
    · simp [Loon.collectLines, hf, List.countP_cons, ih]
    · by_cases ho : (Loon.parse_rule line).ok <;>
        simp [Loon.collectLines, hf, ho, List.countP_cons, ih]

/-- Claim C6, amended: in loon.py, a line whose stripped form starts with a
dot is rejected with the dedicated leading-dot flag, and the per-source
leading_dot counter counts exactly the flagged lines while the valid
counter counts exactly the accepted unflagged ones, so an
unsupported-type line such as not,a,valid,rule,type (flag false, ok false)
is counted by neither; adguard.py, by contrast, does not reject leading-dot
lines at all (see the counterexample). -/
theorem claim6_amended_leading_dot_separation :
    (∀ line t, strip line = '.' :: t → Loon.parse_rule line = ⟨none, none, false, true⟩) ∧
    Loon.parse_rule (str "not,a,valid,rule,type") = ⟨none, none, false, false⟩ ∧
    (∀ name lines, (Loon.collectLines name lines).2.2
      = lines.countP (fun l => (Loon.parse_rule l).flag)) ∧
    (∀ name lines, (Loon.collectLines name lines).2.1
      = lines.countP (fun l => !(Loon.parse_rule l).flag && (Loon.parse_rule l).ok)) :=
  ⟨parse_rule_leading_dot, by decide, collectLines_leading_dot_count, collectLines_valid_count⟩

theorem claim6_witness :
    Loon.parse_rule (str ".example.com") = ⟨none, none, false, true⟩ :=
  claim6_amended_leading_dot_separation.1 (str ".example.com") (str "example.com") (by decide)

/-- Claim C7, counterexample, against both halves of the claim:
an adguard.py run whose only source failed to fetch has no usable rule
after collecting, yet both artifacts are still written (their contents are
produced unconditionally; the script has no empty-run early return); and a
loon.py run that collects a DOMAIN rule together with the slash-free but
valid network IP-CIDR,10.0.0.0 dies in the sort-key expression of line 239
before either write, so it writes neither artifact although rules were
collected and one of them was heading for the survivor set. -/
theorem claim7_counterexample_artifact_policy :
    (Adguard.adguardMain (str "t") [⟨str "adrules", none⟩]).all_raw_rules = [] ∧
    (Adguard.adguardMain (str "t") [⟨str "adrules", none⟩]).outputLines ≠ [] ∧
    (Adguard.adguardMain (str "t") [⟨str "adrules", none⟩]).logLines ≠ [] ∧
    (Loon.collectAll
      [⟨str "anti-ad", some [str "DOMAIN,ads.example.com", str "IP-CIDR,10.0.0.0"]⟩]).1 ≠ [] ∧
    Loon.loonMainRun
      [⟨str "anti-ad", some [str "DOMAIN,ads.example.com", str "IP-CIDR,10.0.0.0"]⟩] = none := by
  decide

/-- Claim C7, amended: in loon.py a run with no usable rule returns before
writing either artifact; a run with at least one collected rule writes
both artifacts (also when some sources failed, since a failed source
merely contributes zero rules) unless a surviving IP-CIDR value has no
computable prefix-length sort key (no slash, or a dotted netmask after the
slash), in which case the key expression of line 239 raises and the run
aborts writing neither; adguard.py, by contrast, produces both artifact
contents on every run, even one with no usable rule. -/
theorem claim7_amended_artifact_policy :
    (∀ srcs, (Loon.collectAll srcs).1 = [] → Loon.loonMainRun srcs = none) ∧
    (∀ srcs, (Loon.collectAll srcs).1 ≠ [] →
      (∀ r ∈ (Loon.exactDedup (Loon.collectAll srcs).1).1.filter
          (fun r => r.rtype = str "IP-CIDR"), (Loon.mainSortKey r.rval).isSome = true) →
      Loon.loonMainRun srcs = some (Loon.loonDedup (Loon.collectAll srcs).1)) ∧
    (∀ srcs, (Loon.collectAll srcs).1 ≠ [] →
      (∃ r ∈ (Loon.exactDedup (Loon.collectAll srcs).1).1.filter
          (fun r => r.rtype = str "IP-CIDR"), Loon.mainSortKey r.rval = none) →
      Loon.loonMainRun srcs = none) ∧
    (∀ now srcs, (Adguard.adguardMain now srcs).outputLines ≠ []
      ∧ (Adguard.adguardMain now srcs).logLines ≠ []) := by
  refine ⟨fun srcs h => ?_, fun srcs h1 h2 => ?_, fun srcs h1 h2 => ?_,
    fun now srcs => ⟨?_, ?_⟩⟩
  · simp [Loon.loonMainRun, h]
  · have hall : ((Loon.exactDedup (Loon.collectAll srcs).1).1.filter
        (fun r => r.rtype = str "IP-CIDR")).all
          (fun r => (Loon.mainSortKey r.rval).isSome) = true :=
      List.all_eq_true.mpr h2
    simp [Loon.loonMainRun, h1, hall]
  · have hall : ((Loon.exactDedup (Loon.collectAll srcs).1).1.filter
        (fun r => r.rtype = str "IP-CIDR")).all
          (fun r => (Loon.mainSortKey r.rval).isSome) = false := by
      obtain ⟨r, hr, hk⟩ := h2
      refine List.all_eq_false.mpr ⟨r, hr, ?_⟩
      simp [hk]
    simp [Loon.loonMainRun, h1, hall]
  · simp [Adguard.adguardMain]
  · simp [Adguard.adguardMain]

theorem claim7_witness :
    Loon.loonMainRun [⟨str "anti-ad", some [str "DOMAIN,ads.example.com"]⟩, ⟨str "adrules", none⟩]
      = some (Loon.loonDedup (Loon.collectAll
          [⟨str "anti-ad", some [str "DOMAIN,ads.example.com"]⟩, ⟨str "adrules", none⟩]).1) :=
  claim7_amended_artifact_policy.2.1 _ (by decide) (by decide)

